import Mathlib

/-
Verification of the go-binary decode engine (decoder.go and the decode
dispatch file) against its natural-language specification.

The Go code is shallowly embedded: byte buffers are `List Nat` (each entry a
byte value, canonicalised mod 256 at every access), the decoder's mutable
cursor is threaded explicitly, Go errors and panics become constructors of
`DecErr`, and machine integers are `Nat`/`Int` with explicit two's-complement
wrapping where the Go code converts between widths.
-/

namespace GoBinary

/-- The three wire encodings (EncodingBin / EncodingBorsh / EncodingCompactU16). -/
inductive Encoding
  | bin
  | borsh
  | compactU16
deriving DecidableEq

/-- Byte order passed to the fixed-width reads (binary.LittleEndian / BigEndian). -/
inductive ByteOrder
  | le
  | be
deriving DecidableEq

/-- The Decoder of decoder.go: an immutable data buffer, a cursor position and
the session encoding.  (The `currentFieldOpt` field is write-only in the code
under review and is omitted.) -/
structure Decoder where
  data : List Nat
  pos : Nat
  encoding : Encoding
deriving DecidableEq

/-- Error outcomes of the embedded operations.  Go `error` returns and Go
panics are both represented here; the `panic…` constructors mark conditions
the Go code raises as panics (fatal), not as recoverable errors. -/
inductive DecErr
  | truncated (required available : Nat)
  | varintSize
  | disallowedNaN
  | byteArrayMissing (varlen missing : Int)
  | posOutOfBuffer (idx size : Nat)
  | customErr (code : Nat)
  | mismatch
  | fuelExhausted
  | panicTagOrdering (field : String)
  | panicSizeofField
  | panicMakeSlice
  | panicSliceBounds
  | panicInvalidValue
deriving DecidableEq

/-- Byte access `dec.data[i]`; entries are canonicalised to byte range. -/
def byteAt (data : List Nat) (i : Nat) : Nat := data.getD i 0 % 256

/-- Remaining: `len(dec.data) - dec.pos`. -/
def Decoder.remaining (d : Decoder) : Nat := d.data.length - d.pos

/-- IsBorsh from decoder.go. -/
def Decoder.isBorsh (d : Decoder) : Bool := d.encoding == .borsh

/-- ReadByte from decoder.go: bounds check, then read one byte and advance. -/
def Decoder.readByte (d : Decoder) : Except DecErr Nat × Decoder :=
  if d.remaining < 1 then (.error (.truncated 1 d.remaining), d)
  else (.ok (byteAt d.data d.pos), { d with pos := d.pos + 1 })

/-- ReadBool from decoder.go: its own bounds check, then ReadByte, nonzero test. -/
def Decoder.readBool (d : Decoder) : Except DecErr Bool × Decoder :=
  if d.remaining < 1 then (.error (.truncated 1 d.remaining), d)
  else
    match d.readByte with
    | (.ok b, d1) => (.ok (b != 0), d1)
    | (.error e, d1) => (.error e, d1)

/-- readNBytes from decoder.go: a loop of single ReadByte calls with no
upfront bounds check; the first failing byte read aborts with its error,
leaving the cursor wherever the successful reads moved it. -/
def readNBytes : Nat → Decoder → Except DecErr (List Nat) × Decoder
  | 0, d => (.ok [], d)
  | n + 1, d =>
    match d.readByte with
    | (.error e, d1) => (.error e, d1)
    | (.ok b, d1) =>
      match readNBytes n d1 with
      | (.error e, d2) => (.error e, d2)
      | (.ok bs, d2) => (.ok (b :: bs), d2)

/-- Little-endian value of `w` bytes of `data` starting at `p`. -/
def leUintN : Nat → List Nat → Nat → Nat
  | 0, _, _ => 0
  | w + 1, data, p => byteAt data p + 256 * leUintN w data (p + 1)

/-- Big-endian value of `w` bytes of `data` starting at `p`. -/
def beUintN : Nat → List Nat → Nat → Nat
  | 0, _, _ => 0
  | w + 1, data, p => byteAt data p * 256 ^ w + beUintN w data (p + 1)

/-- order.UintXX reading from a position in the buffer. -/
def ByteOrder.uintN : ByteOrder → Nat → List Nat → Nat → Nat
  | .le => leUintN
  | .be => beUintN

/-- Little-endian value of a standalone byte list. -/
def leOfList : List Nat → Nat
  | [] => 0
  | b :: r => b % 256 + 256 * leOfList r

/-- Big-endian value of a standalone byte list. -/
def beOfList : List Nat → Nat
  | [] => 0
  | b :: r => b % 256 * 256 ^ r.length + beOfList r

/-- order.Uint64 applied to a byte slice already copied out of the buffer. -/
def ByteOrder.ofList : ByteOrder → List Nat → Nat
  | .le, bs => leOfList bs
  | .be, bs => beOfList bs

/-- ReadUint16 from decoder.go. -/
def Decoder.readUint16 (d : Decoder) (o : ByteOrder) : Except DecErr Nat × Decoder :=
  if d.remaining < 2 then (.error (.truncated 2 d.remaining), d)
  else (.ok (o.uintN 2 d.data d.pos), { d with pos := d.pos + 2 })

/-- ReadUint32 from decoder.go. -/
def Decoder.readUint32 (d : Decoder) (o : ByteOrder) : Except DecErr Nat × Decoder :=
  if d.remaining < 4 then (.error (.truncated 4 d.remaining), d)
  else (.ok (o.uintN 4 d.data d.pos), { d with pos := d.pos + 4 })

/-- ReadUint64 from decoder.go: bounds check first, then ReadNBytes(8) and a
byte-order interpretation of the copied bytes. -/
def Decoder.readUint64 (d : Decoder) (o : ByteOrder) : Except DecErr Nat × Decoder :=
  if d.remaining < 8 then (.error (.truncated 8 d.remaining), d)
  else
    match readNBytes 8 d with
    | (.error e, d1) => (.error e, d1)
    | (.ok bs, d1) => (.ok (o.ofList bs), d1)

/-- ReadUint128 from decoder.go, producing the (Lo, Hi) pair: under
little-endian the first 8-byte word is the low half; under big-endian the
assignment is reversed. -/
def Decoder.readUint128 (d : Decoder) (o : ByteOrder) : Except DecErr (Nat × Nat) × Decoder :=
  if d.remaining < 16 then (.error (.truncated 16 d.remaining), d)
  else
    match o with
    | .le =>
      (.ok (ByteOrder.uintN .le 8 d.data d.pos, ByteOrder.uintN .le 8 d.data (d.pos + 8)),
        { d with pos := d.pos + 16 })
    | .be =>
      (.ok (ByteOrder.uintN .be 8 d.data (d.pos + 8), ByteOrder.uintN .be 8 d.data d.pos),
        { d with pos := d.pos + 16 })

/-- IEEE-754 single-precision NaN test on the raw bit pattern: exponent all
ones and nonzero mantissa (math.IsNaN after Float32frombits). -/
def isNaN32 (bits : Nat) : Bool := (bits / 2 ^ 23) % 256 == 255 && bits % 2 ^ 23 != 0

/-- IEEE-754 double-precision NaN test on the raw bit pattern. -/
def isNaN64 (bits : Nat) : Bool := (bits / 2 ^ 52) % 2048 == 2047 && bits % 2 ^ 52 != 0

/-- ReadFloat32 from decoder.go: bounds check, read 4 bytes and advance, then
reject a NaN bit pattern when (and only when) the session encoding is Borsh.
The result carries the raw bit pattern of the float. -/
def Decoder.readFloat32 (d : Decoder) (o : ByteOrder) : Except DecErr Nat × Decoder :=
  if d.remaining < 4 then (.error (.truncated 4 d.remaining), d)
  else
    let n := o.uintN 4 d.data d.pos
    let d1 : Decoder := { d with pos := d.pos + 4 }
    if d.isBorsh && isNaN32 n then (.error .disallowedNaN, d1)
    else (.ok n, d1)

/-- ReadFloat64 from decoder.go, same structure as ReadFloat32. -/
def Decoder.readFloat64 (d : Decoder) (o : ByteOrder) : Except DecErr Nat × Decoder :=
  if d.remaining < 8 then (.error (.truncated 8 d.remaining), d)
  else
    let n := o.uintN 8 d.data d.pos
    let d1 : Decoder := { d with pos := d.pos + 8 }
    if d.isBorsh && isNaN64 n then (.error .disallowedNaN, d1)
    else (.ok n, d1)

/-- Two's-complement reinterpretation of a `w`-bit unsigned value as signed. -/
def toSigned (w : Nat) (n : Nat) : Int :=
  if n % 2 ^ w < 2 ^ (w - 1) then Int.ofNat (n % 2 ^ w)
  else Int.ofNat (n % 2 ^ w) - Int.ofNat (2 ^ w)

/-- binary.Uvarint over a byte list: LEB128 with Go's exact termination and
overflow behaviour (returns consumed count ≤ 0 on empty/unterminated input or
overflow past 10 bytes).  The accumulated groups occupy disjoint bit ranges,
so Go's shift-and-or is addition here, truncated to 64 bits at the return. -/
def uvarintGo : List Nat → Nat → Nat → Nat → Nat × Int
  | [], _, _, _ => (0, 0)
  | b :: rest, i, x, s =>
    let bb := b % 256
    if i == 10 then (0, -(Int.ofNat i) - 1)
    else if bb < 128 then
      if i == 9 && bb > 1 then (0, -(Int.ofNat i) - 1)
      else ((x + bb * 2 ^ s) % 2 ^ 64, Int.ofNat i + 1)
    else uvarintGo rest (i + 1) (x + bb % 128 * 2 ^ s) (s + 7)

/-- ReadUvarint64 from decoder.go: binary.Uvarint on the buffer suffix; a
nonpositive consumed count is the varint buffer-size error and leaves the
cursor unmoved; otherwise the cursor advances by the consumed count. -/
def Decoder.readUvarint64 (d : Decoder) : Except DecErr Nat × Decoder :=
  let r := uvarintGo (d.data.drop d.pos) 0 0 0
  if r.2 ≤ 0 then (.error .varintSize, d)
  else (.ok r.1, { d with pos := d.pos + r.2.toNat })

/-- Modelled from the spec: DecodeCompactU16LengthFromByteReader is an external
collaborator whose source file is not under review.  Per §6 it reads a
compact-u16 length from a sequential byte source (7 value bits per byte, at
most three bytes), failing if the source is exhausted mid-encoding. -/
def Decoder.decodeCompactU16Length (d : Decoder) : Except DecErr Nat × Decoder :=
  match d.readByte with
  | (.error e, d1) => (.error e, d1)
  | (.ok b0, d1) =>
    if b0 < 128 then (.ok b0, d1)
    else
      match d1.readByte with
      | (.error e, d2) => (.error e, d2)
      | (.ok b1, d2) =>
        if b1 < 128 then (.ok (b0 % 128 + 128 * b1), d2)
        else
          match d2.readByte with
          | (.error e, d3) => (.error e, d3)
          | (.ok b2, d3) => (.ok (b0 % 128 + 128 * (b1 % 128) + 16384 * b2), d3)

/-- ReadLength from decoder.go: the single seam where the three encodings
diverge for length-prefixed constructs.  The Go `int` result is modelled as
`Int`; the Bin branch converts the uvarint through a 64-bit int. -/
def Decoder.readLength (d : Decoder) : Except DecErr Int × Decoder :=
  match d.encoding with
  | .bin =>
    match d.readUvarint64 with
    | (.error e, d1) => (.error e, d1)
    | (.ok v, d1) => (.ok (toSigned 64 v), d1)
  | .borsh =>
    match d.readUint32 .le with
    | (.error e, d1) => (.error e, d1)
    | (.ok v, d1) => (.ok (Int.ofNat v), d1)
  | .compactU16 =>
    match d.decodeCompactU16Length with
    | (.error e, d1) => (.error e, d1)
    | (.ok v, d1) => (.ok (Int.ofNat v), d1)

/-- ReadByteSlice from decoder.go: a length via ReadLength, then that many
bytes.  A negative int length (possible through the Bin branch's uint64 to
int conversion) passes the missing-bytes comparison and then panics at the
Go slice expression; that panic is modelled explicitly. -/
def Decoder.readByteSlice (d : Decoder) : Except DecErr (List Nat) × Decoder :=
  match d.readLength with
  | (.error e, d1) => (.error e, d1)
  | (.ok len, d1) =>
    if (d1.data.length : Int) < (d1.pos : Int) + len then
      (.error (.byteArrayMissing len ((d1.pos : Int) + len - (d1.data.length : Int))), d1)
    else if len < 0 then (.error .panicSliceBounds, d1)
    else (.ok ((d1.data.drop d1.pos).take len.toNat), { d1 with pos := d1.pos + len.toNat })

/-- ReadString from decoder.go: the raw flavor, `string(data)` — the
length-prefixed bytes copied verbatim, with no UTF-8 sanitization. -/
def Decoder.readString (d : Decoder) : Except DecErr (List Nat) × Decoder :=
  d.readByteSlice

/-- fixUtf from decoder.go: maps the UTF-8 replacement rune to itself and
leaves every other rune unchanged. -/
def fixUtf (r : Nat) : Nat := if r == 0xFFFD then 0xFFFD else r

/-- Decode the first UTF-8 rune of a byte list, Go utf8.DecodeRune semantics:
result rune and consumed byte count; every malformed, overlong, surrogate or
incomplete sequence yields the replacement rune with one byte consumed. -/
def utf8DecodeFirst : List Nat → Nat × Nat
  | [] => (0xFFFD, 1)
  | b0 :: rest =>
    let c0 := b0 % 256
    if c0 < 0x80 then (c0, 1)
    else if c0 < 0xC2 then (0xFFFD, 1)
    else if c0 < 0xE0 then
      match rest with
      | b1 :: _ =>
        if 0x80 ≤ b1 && b1 ≤ 0xBF then ((c0 - 0xC0) * 64 + b1 % 64, 2) else (0xFFFD, 1)
      | [] => (0xFFFD, 1)
    else if c0 < 0xF0 then
      match rest with
      | b1 :: b2 :: _ =>
        let lo1 := if c0 == 0xE0 then 0xA0 else 0x80
        let hi1 := if c0 == 0xED then 0x9F else 0xBF
        if lo1 ≤ b1 && b1 ≤ hi1 && 0x80 ≤ b2 && b2 ≤ 0xBF then
          ((c0 - 0xE0) * 4096 + b1 % 64 * 64 + b2 % 64, 3)
        else (0xFFFD, 1)
      | _ => (0xFFFD, 1)
    else if c0 < 0xF5 then
      match rest with
      | b1 :: b2 :: b3 :: _ =>
        let lo1 := if c0 == 0xF0 then 0x90 else 0x80
        let hi1 := if c0 == 0xF4 then 0x8F else 0xBF
        if lo1 ≤ b1 && b1 ≤ hi1 && 0x80 ≤ b2 && b2 ≤ 0xBF && 0x80 ≤ b3 && b3 ≤ 0xBF then
          ((c0 - 0xF0) * 262144 + b1 % 64 * 4096 + b2 % 64 * 64 + b3 % 64, 4)
        else (0xFFFD, 1)
      | _ => (0xFFFD, 1)
    else (0xFFFD, 1)

/-- UTF-8 encoding of a rune (runes here always come out of utf8DecodeFirst,
so they are in the valid encodable range). -/
def utf8Encode (r : Nat) : List Nat :=
  if r < 0x80 then [r]
  else if r < 0x800 then [0xC0 + r / 64, 0x80 + r % 64]
  else if r < 0x10000 then [0xE0 + r / 4096, 0x80 + r / 64 % 64, 0x80 + r % 64]
  else [0xF0 + r / 262144, 0x80 + r / 4096 % 64, 0x80 + r / 64 % 64, 0x80 + r % 64]

/-- strings.Map(fixUtf, ·) over a byte string: decode runes one at a time
(each step consumes at least one byte), map each through fixUtf, re-encode.
The fuel argument is the list length, which bounds the number of steps. -/
def utf8SanitizeGo : Nat → List Nat → List Nat
  | 0, _ => []
  | _, [] => []
  | fuel + 1, b :: t =>
    let r := utf8DecodeFirst (b :: t)
    utf8Encode (fixUtf r.1) ++ utf8SanitizeGo fuel ((b :: t).drop (max r.2 1))

/-- Sanitizing map of fixUtf over a byte string. -/
def utf8Sanitize (bs : List Nat) : List Nat := utf8SanitizeGo bs.length bs

/-- SafeReadUTF8String from decoder.go: a length-prefixed byte slice with
every invalid UTF-8 sequence replaced by the replacement character. -/
def Decoder.safeReadUTF8String (d : Decoder) : Except DecErr (List Nat) × Decoder :=
  match d.readByteSlice with
  | (.error e, d1) => (.error e, d1)
  | (.ok bs, d1) => (.ok (utf8Sanitize bs), d1)

/-- SetPosition from decoder.go: Go converts the uint argument with int(idx)
— a two's-complement wrap, negative for idx ≥ 2^63 — and the guard compares
that strictly against the buffer length.  For idx < 2^63 the stored position
is idx itself.  For idx ≥ 2^63 the wrapped int is negative, so the guard
passes and Go stores a negative cursor — a state the Nat cursor of this
embedding cannot hold; the stored component is clamped there (toNat) and no
theorem inspects the stored state in that branch, only the call's outcome. -/
def Decoder.setPosition (d : Decoder) (idx : Nat) : Except DecErr Unit × Decoder :=
  if toSigned 64 idx < (d.data.length : Int) then
    (.ok (), { d with pos := (toSigned 64 idx).toNat })
  else (.error (.posOutOfBuffer idx d.data.length), d)

/-- The parsed result of a field tag, as consumed by decodeStruct.  The tag
string grammar itself is an external collaborator (spec §6); the engine only
sees this record.  `sizeOf` is the name of the field this field sizes, with
the empty string meaning no linkage, exactly as in the Go fieldTag. -/
structure FieldTag where
  skip : Bool
  binaryExtension : Bool
  optional : Bool
  order : ByteOrder
  sizeOf : String
deriving DecidableEq

mutual
/-- The structural categories the Bin decode engine dispatches on: the scalar
kinds of the reflect switch, fixed arrays, slices, structs with tagged
fields, the interface kind, pointer indirection, and types exposing an
UnmarshalBinary override (identified by an index into a custom environment). -/
inductive Ty
  | uint8T
  | uint16T
  | uint32T
  | uint64T
  | int8T
  | int16T
  | int32T
  | int64T
  | float32T
  | float64T
  | boolT
  | stringT
  | ifaceT
  | arrayT (n : Nat) (t : Ty)
  | sliceT (t : Ty)
  | structT (fs : Fields)
  | ptrT (t : Ty)
  | customT (id : Nat) (t : Ty)
/-- A struct's field declarations in order: name, parsed tag, type. -/
inductive Fields
  | fnil
  | fcons (name : String) (tag : FieldTag) (t : Ty) (rest : Fields)
end

mutual
/-- Decoded Go values: integers carry their Go representation (unsigned as
Nat, signed as Int), floats carry their raw bit pattern, strings their bytes;
arrays and slices share a representation; pointers are nil or set. -/
inductive Value
  | uintV (n : Nat)
  | intV (n : Int)
  | floatV (bits : Nat)
  | boolV (b : Bool)
  | strV (bytes : List Nat)
  | arrV (vs : Values)
  | structV (vs : Values)
  | ptrNull
  | ptrSome (v : Value)
  | ifaceNil
/-- A list of values (element values, field values). -/
inductive Values
  | vnil
  | vcons (v : Value) (rest : Values)
end

/-- n copies of a value (the elements of a freshly made slice). -/
def valReplicate : Nat → Value → Values
  | 0, _ => .vnil
  | n + 1, v => .vcons v (valReplicate n v)

mutual
/-- reflect.Zero for each structural category. -/
def zeroValue : Ty → Value
  | .uint8T | .uint16T | .uint32T | .uint64T => .uintV 0
  | .int8T | .int16T | .int32T | .int64T => .intV 0
  | .float32T | .float64T => .floatV 0
  | .boolT => .boolV false
  | .stringT => .strV []
  | .ifaceT => .ifaceNil
  | .arrayT n t => .arrV (valReplicate n (zeroValue t))
  | .sliceT _ => .arrV .vnil
  | .structT fs => .structV (zeroFields fs)
  | .ptrT _ => .ptrNull
  | .customT _ t => zeroValue t
/-- Zero values of a field list. -/
def zeroFields : Fields → Values
  | .fnil => .vnil
  | .fcons _ _ t rest => .vcons (zeroValue t) (zeroFields rest)
end

/-- Whether a type's reflect.Kind is Ptr; a custom-override wrapper keeps the
kind of the type it wraps. -/
def isPtrKind : Ty → Bool
  | .ptrT _ => true
  | .customT _ t => isPtrKind t
  | _ => false

/-- Outcome of the indirect walk with decodingNull = true (decoder.go's
indirect): whether it returns a BinaryUnmarshaler together with a zero
reflect.Value instead of stopping at a settable location.  A non-pointer
custom-override destination is addressed (Addr) and its unmarshaler found
before any break, returning the invalid value; a pointer whose element kind
is not Ptr breaks at that last settable wrapper before the unmarshaler
check; a pointer to a pointer-kinded type passes the unmarshaler check of
the outer pointer (which has no methods) and descends. -/
def indirectNullFindsUnmarshaler : Ty → Bool
  | .customT _ _ => true
  | .ptrT t => if isPtrKind t then indirectNullFindsUnmarshaler t else false
  | _ => false

/-- The option record consumed by decodeBin.  The option type itself is
declared outside the files under review; it is modelled from its use sites
and the spec's FieldDirective (§3): optional flag, byte order, and the
optional linked size installed by setSizeOfSlice. -/
structure Opt where
  optionalField : Bool
  order : ByteOrder
  sizeOfSlice : Option Int
deriving DecidableEq

/-- option.isOptional. -/
def Opt.isOptional (o : Opt) : Bool := o.optionalField

/-- option.hasSizeOfSlice. -/
def Opt.hasSizeOfSlice (o : Opt) : Bool := o.sizeOfSlice.isSome

/-- option.getSizeOfSlice. -/
def Opt.getSizeOfSlice (o : Opt) : Int := o.sizeOfSlice.getD 0

/-- option.setSizeOfSlice. -/
def Opt.setSizeOfSlice (o : Opt) (s : Int) : Opt := { o with sizeOfSlice := some s }

/-- Modelled from the repository's newDefaultOption (declared outside the
files under review): not optional, little-endian order, no size linkage. -/
def newDefaultOpt : Opt := { optionalField := false, order := .le, sizeOfSlice := none }

/-- The environment of UnmarshalBinary overrides: what a customT type's
UnmarshalBinary method does with the live decoder. -/
def CustomEnv : Type := Nat → Decoder → Except DecErr Value × Decoder

/-- A custom environment in which every override fails; used to instantiate
theorems at concrete inputs. -/
def envNone : CustomEnv := fun _ d => (.error (.customErr 0), d)

/-- sizeof from decoder.go: for signed integer kinds the value passes through
int64/int unchanged; for unsigned kinds the uint64 is converted to a 64-bit
int (two's-complement wrap) and a negative result is clamped to 0; any other
kind panics. -/
def sizeofGo : Ty → Value → Except DecErr Int
  | .int8T, .intV n | .int16T, .intV n | .int32T, .intV n | .int64T, .intV n => .ok n
  | .uint8T, .uintV n | .uint16T, .uintV n | .uint32T, .uintV n | .uint64T, .uintV n =>
    .ok (if toSigned 64 n < 0 then 0 else toSigned 64 n)
  | _, _ => .error .panicSizeofField

/-- The sizeOfMap of decodeStruct: a name-to-size mapping where a later
insertion for the same name shadows an earlier one. -/
def SizeMap : Type := List (String × Int)

/-- The type of the full decode entry point, abstracted so that the element
and field drivers below can re-enter the engine one nesting level down. -/
def DecodeFn : Type := Ty → Value → Opt → Decoder → Except DecErr Value × Decoder

/-- The element loop shared by the array and slice cases of decodeBin: decode
each element in order, re-entering the engine with the same option, stopping
at the first error. -/
def decodeElemsGo (bin : DecodeFn) (t : Ty) : Values → Opt → Decoder → Except DecErr Values × Decoder
  | .vnil, _, d => (.ok .vnil, d)
  | .vcons v rest, opt, d =>
    match bin t v opt d with
    | (.error e, d1) => (.error e, d1)
    | (.ok v1, d1) =>
      match decodeElemsGo bin t rest opt d1 with
      | (.error e, d2) => (.error e, d2)
      | (.ok vs, d2) => (.ok (.vcons v1 vs), d2)

/-- decodeStruct from the decode dispatch file: iterate the declared fields in
order, threading the seen-extension flag and the sizeOfMap.  Per field:
honour the skip tag; panic when a non-extension field follows an extension
field; skip an extension field when no bytes remain; build the field's option
from its tag plus any recorded size linkage; decode via the engine; and when
the field is a size source, record sizeof of the decoded value under the
target name.  Results: the decoded field values, the final sizeOfMap, and the
final decoder. -/
def decodeFieldsGo (bin : DecodeFn) :
    Fields → Values → Bool → SizeMap → Decoder → Except DecErr Values × SizeMap × Decoder
  | .fnil, _, _, m, d => (.ok .vnil, m, d)
  | .fcons _ _ _ _, .vnil, _, m, d => (.error .mismatch, m, d)
  | .fcons name tag t rest, .vcons old olds, seen, m, d =>
    if tag.skip then
      match decodeFieldsGo bin rest olds seen m d with
      | (.error e, m1, d1) => (.error e, m1, d1)
      | (.ok vs, m1, d1) => (.ok (.vcons old vs), m1, d1)
    else if !tag.binaryExtension && seen then
      (.error (.panicTagOrdering name), m, d)
    else
      let seen1 := seen || tag.binaryExtension
      if tag.binaryExtension && d.remaining == 0 then
        match decodeFieldsGo bin rest olds seen1 m d with
        | (.error e, m1, d1) => (.error e, m1, d1)
        | (.ok vs, m1, d1) => (.ok (.vcons old vs), m1, d1)
      else
        let opt0 : Opt := { optionalField := tag.optional, order := tag.order, sizeOfSlice := none }
        let opt1 : Opt :=
          match List.lookup name m with
          | some s => opt0.setSizeOfSlice s
          | none => opt0
        match bin t old opt1 d with
        | (.error e, d1) => (.error e, m, d1)
        | (.ok v, d1) =>
          match (if tag.sizeOf == "" then Except.ok m
                 else
                   match sizeofGo t v with
                   | .ok s => Except.ok ((tag.sizeOf, s) :: m)
                   | .error pe => Except.error pe : Except DecErr SizeMap) with
          | .error pe => (.error pe, m, d1)
          | .ok m1 =>
            match decodeFieldsGo bin rest olds seen1 m1 d1 with
            | (.error e, m2, d2) => (.error e, m2, d2)
            | (.ok vs, m2, d2) => (.ok (.vcons v vs), m2, d2)

/-- The structural switch of decodeBin (everything after the optional-presence
prelude): the unmarshaler delegation, the scalar reads with the option's byte
order, the interface no-op, and the array / slice / struct cases.  Nested
recursive decode calls go through `bin`, the engine one fuel level down;
pointer unwrapping (the indirect walk) stays at the same level. -/
def decodeCoreGo (bin : DecodeFn) (env : CustomEnv) : Ty → Value → Opt → Decoder → Except DecErr Value × Decoder
  | .customT id _, _, _, d => env id d
  | .ptrT t, old, opt, d =>
    let inner : Value :=
      match old with
      | .ptrSome v => v
      | _ => zeroValue t
    (match decodeCoreGo bin env t inner opt d with
     | (.error e, d1) => (.error e, d1)
     | (.ok v, d1) => (.ok (.ptrSome v), d1))
  | .stringT, _, _, d =>
    (match d.readString with
     | (.error e, d1) => (.error e, d1)
     | (.ok s, d1) => (.ok (.strV s), d1))
  | .uint8T, _, _, d =>
    (match d.readByte with
     | (.error e, d1) => (.error e, d1)
     | (.ok b, d1) => (.ok (.uintV b), d1))
  | .int8T, _, _, d =>
    (match d.readByte with
     | (.error e, d1) => (.error e, d1)
     | (.ok b, d1) => (.ok (.intV (toSigned 8 b)), d1))
  | .int16T, _, opt, d =>
    (match d.readUint16 opt.order with
     | (.error e, d1) => (.error e, d1)
     | (.ok n, d1) => (.ok (.intV (toSigned 16 n)), d1))
  | .int32T, _, opt, d =>
    (match d.readUint32 opt.order with
     | (.error e, d1) => (.error e, d1)
     | (.ok n, d1) => (.ok (.intV (toSigned 32 n)), d1))
  | .int64T, _, opt, d =>
    (match d.readUint64 opt.order with
     | (.error e, d1) => (.error e, d1)
     | (.ok n, d1) => (.ok (.intV (toSigned 64 n)), d1))
  | .uint16T, _, opt, d =>
    (match d.readUint16 opt.order with
     | (.error e, d1) => (.error e, d1)
     | (.ok n, d1) => (.ok (.uintV n), d1))
  | .uint32T, _, opt, d =>
    (match d.readUint32 opt.order with
     | (.error e, d1) => (.error e, d1)
     | (.ok n, d1) => (.ok (.uintV n), d1))
  | .uint64T, _, opt, d =>
    (match d.readUint64 opt.order with
     | (.error e, d1) => (.error e, d1)
     | (.ok n, d1) => (.ok (.uintV n), d1))
  | .float32T, _, opt, d =>
    (match d.readFloat32 opt.order with
     | (.error e, d1) => (.error e, d1)
     | (.ok n, d1) => (.ok (.floatV n), d1))
  | .float64T, _, opt, d =>
    (match d.readFloat64 opt.order with
     | (.error e, d1) => (.error e, d1)
     | (.ok n, d1) => (.ok (.floatV n), d1))
  | .boolT, _, _, d =>
    (match d.readBool with
     | (.error e, d1) => (.error e, d1)
     | (.ok b, d1) => (.ok (.boolV b), d1))
  | .ifaceT, old, _, d => (.ok old, d)
  | .arrayT n t, old, opt, d =>
    let olds : Values :=
      match old with
      | .arrV vs => vs
      | _ => valReplicate n (zeroValue t)
    (match decodeElemsGo bin t olds opt d with
     | (.error e, d1) => (.error e, d1)
     | (.ok vs, d1) => (.ok (.arrV vs), d1))
  | .sliceT t, _, opt, d =>
    (match
      (if opt.hasSizeOfSlice then (Except.ok opt.getSizeOfSlice, d)
       else
         match d.readUvarint64 with
         | (.error e, d1) => (Except.error e, d1)
         | (.ok u, d1) => (Except.ok (toSigned 64 u), d1) : Except DecErr Int × Decoder) with
     | (.error e, d1) => (.error e, d1)
     | (.ok l, d1) =>
       if l < 0 then (.error .panicMakeSlice, d1)
       else
         match decodeElemsGo bin t (valReplicate l.toNat (zeroValue t)) opt d1 with
         | (.error e, d2) => (.error e, d2)
         | (.ok vs, d2) => (.ok (.arrV vs), d2))
  | .structT fs, old, _, d =>
    let olds : Values :=
      match old with
      | .structV vs => vs
      | _ => zeroFields fs
    (match decodeFieldsGo bin fs olds false [] d with
     | (.error e, _, d1) => (.error e, d1)
     | (.ok vs, _, d1) => (.ok (.structV vs), d1))

/-- decodeBin from the decode dispatch file, step-indexed by fuel so that the
recursion through the element and field drivers is structural: with the
option marked optional, the entry indirect walk runs with decodingNull =
true, then one presence byte is read.  A presence byte of zero means absent:
the stopped-at location is set to its zero value with no further reads (the
unmarshaler is never consulted) — unless the indirect walk returned an
unmarshaler with a zero reflect.Value (a non-pointer custom-override
destination), in which case rv.Set(reflect.Zero(rv.Type())) panics on the
invalid value; the presence-read error path formats rv.Type() too and panics
the same way there.  A nonzero presence byte means present: continue into
the structural switch.  Each nesting level of recursive decoding consumes
one unit of fuel; exhausted fuel is a distinguished error no terminating run
produces. -/
def decodeBinAt : Nat → CustomEnv → Ty → Value → Opt → Decoder → Except DecErr Value × Decoder
  | 0, _, _, _, _, d => (.error .fuelExhausted, d)
  | fuel + 1, env, t, old, opt, d =>
    if opt.isOptional then
      match d.readByte with
      | (.error e, d1) =>
        if indirectNullFindsUnmarshaler t then (.error .panicInvalidValue, d1)
        else (.error e, d1)
      | (.ok isPresent, d1) =>
        if isPresent == 0 then
          if indirectNullFindsUnmarshaler t then (.error .panicInvalidValue, d1)
          else (.ok (zeroValue t), d1)
        else decodeCoreGo (decodeBinAt fuel env) env t old opt d1
    else decodeCoreGo (decodeBinAt fuel env) env t old opt d

/-- The field list of claim C2's record `{ Len uint32 sizeof=Items; Items []byte }`,
with both fields carrying the given byte order and no other tag content. -/
def c2FieldList (o : ByteOrder) : Fields :=
  .fcons "Len" ⟨false, false, false, o, "Items"⟩ .uint32T
    (.fcons "Items" ⟨false, false, false, o, ""⟩ (.sliceT .uint8T) .fnil)

/-- The record shape of claim C2. -/
def c2Ty (o : ByteOrder) : Ty := .structT (c2FieldList o)

/-- The record shape of claim C4: fields `[A, B(ext), C(ext)]`. -/
def c4Fields (nA nB nC : String) (oA oB oC : ByteOrder) (tA tB tC : Ty) : Fields :=
  .fcons nA ⟨false, false, false, oA, ""⟩ tA
    (.fcons nB ⟨false, true, false, oB, ""⟩ tB
      (.fcons nC ⟨false, true, false, oC, ""⟩ tC .fnil))

/-- The record shape of claim C5: a non-extension field after an extension
field, `[A(ext), B]`. -/
def c5Fields (nA nB : String) (oA oB : ByteOrder) (tA tB : Ty) : Fields :=
  .fcons nA ⟨false, true, false, oA, ""⟩ tA
    (.fcons nB ⟨false, false, false, oB, ""⟩ tB .fnil)

/-- readNBytes on a buffer with fewer remaining bytes than requested: the loop
consumes every remaining byte before the failing single-byte read, so it ends
with the cursor at the buffer end and the error of the one-byte step. -/
theorem readNBytes_truncation (n : Nat) :
    ∀ d : Decoder, d.pos ≤ d.data.length → d.remaining < n →
      readNBytes n d = (.error (.truncated 1 0), { d with pos := d.data.length }) := by
  induction n with
  | zero => intro d _ h; exact absurd h (by omega)
  | succ n ih =>
    intro d hle h
    rcases Nat.eq_zero_or_pos d.remaining with h0 | h0
    · have hpos : d.pos = d.data.length := by
        have h2 : d.data.length - d.pos = 0 := h0
        omega
      have hstep : readNBytes (n + 1) d = (.error (.truncated 1 d.remaining), d) := by
        unfold readNBytes Decoder.readByte
        rw [if_pos (by omega)]
      rw [hstep, h0]
      obtain ⟨data, pos, enc⟩ := d
      simp only at hpos
      subst hpos
      rfl
    · have h1 : ¬ d.remaining < 1 := by omega
      have hstep : d.readByte = (.ok (byteAt d.data d.pos), { d with pos := d.pos + 1 }) := by
        unfold Decoder.readByte
        rw [if_neg h1]
      have hle1 : ({ d with pos := d.pos + 1 } : Decoder).pos ≤
          ({ d with pos := d.pos + 1 } : Decoder).data.length := by
        simp only [Decoder.remaining] at h0
        simp only
        omega
      have hlt1 : ({ d with pos := d.pos + 1 } : Decoder).remaining < n := by
        simp only [Decoder.remaining] at h0 h ⊢
        omega
      have hrec := ih { d with pos := d.pos + 1 } hle1 hlt1
      unfold readNBytes
      rw [hstep]
      simp only
      rw [hrec]

/-- Claim C1 counterexample: an N-byte read on a 1-byte buffer requesting 3
bytes fails, but the cursor afterwards sits at position 1, not at the initial
position 0, and the error reports required 1 / available 0 rather than the
requested 3 against the available 1 — so the N-byte read does not validate
before touching the cursor as the claim states. -/
theorem c1_readNBytes_moves_cursor :
    readNBytes 3 ⟨[7], 0, .bin⟩ = (.error (.truncated 1 0), ⟨[7], 1, .bin⟩) ∧
    (1 : Nat) ≠ 0 ∧ DecErr.truncated 1 0 ≠ DecErr.truncated 3 1 := by
  refine ⟨rfl, by decide, by decide⟩

/-- Claim C1 amended: the byte, bool and fixed-width integer/float reads
(1/2/4/8/16 bytes wide) validate remaining against the required width before
touching the cursor and, on insufficient bytes, fail with the truncation
error carrying the required and available counts, cursor unmoved.  The N-byte
read does not pre-validate: with fewer than n bytes remaining it fails after
consuming every remaining byte, ending at the buffer end with the one-byte
step's error. -/
theorem c1_truncation_contract (d : Decoder) (o : ByteOrder) (n : Nat) :
    (d.remaining < 1 → d.readByte = (.error (.truncated 1 d.remaining), d)) ∧
    (d.remaining < 1 → d.readBool = (.error (.truncated 1 d.remaining), d)) ∧
    (d.remaining < 2 → d.readUint16 o = (.error (.truncated 2 d.remaining), d)) ∧
    (d.remaining < 4 → d.readUint32 o = (.error (.truncated 4 d.remaining), d)) ∧
    (d.remaining < 8 → d.readUint64 o = (.error (.truncated 8 d.remaining), d)) ∧
    (d.remaining < 16 → d.readUint128 o = (.error (.truncated 16 d.remaining), d)) ∧
    (d.remaining < 4 → d.readFloat32 o = (.error (.truncated 4 d.remaining), d)) ∧
    (d.remaining < 8 → d.readFloat64 o = (.error (.truncated 8 d.remaining), d)) ∧
    (d.pos ≤ d.data.length → d.remaining < n →
      readNBytes n d = (.error (.truncated 1 0), { d with pos := d.data.length })) := by
  refine ⟨?_, ?_, ?_, ?_, ?_, ?_, ?_, ?_, fun hle h => readNBytes_truncation n d hle h⟩
  · intro h
    unfold Decoder.readByte
    rw [if_pos h]
  · intro h
    unfold Decoder.readBool
    rw [if_pos h]
  · intro h
    unfold Decoder.readUint16
    rw [if_pos h]
  · intro h
    unfold Decoder.readUint32
    rw [if_pos h]
  · intro h
    unfold Decoder.readUint64
    rw [if_pos h]
  · intro h
    unfold Decoder.readUint128
    rw [if_pos h]
  · intro h
    unfold Decoder.readFloat32
    rw [if_pos h]
  · intro h
    unfold Decoder.readFloat64
    rw [if_pos h]

/-- Claim C1 witness: the truncation contract evaluated on a concrete decoder
with zero remaining bytes (and an N-byte request of 2). -/
theorem c1_truncation_contract_witness :
    Decoder.readByte ⟨[7], 1, .bin⟩ = (.error (.truncated 1 0), ⟨[7], 1, .bin⟩) ∧
    Decoder.readBool ⟨[7], 1, .bin⟩ = (.error (.truncated 1 0), ⟨[7], 1, .bin⟩) ∧
    Decoder.readUint16 ⟨[7], 1, .bin⟩ .le = (.error (.truncated 2 0), ⟨[7], 1, .bin⟩) ∧
    Decoder.readUint32 ⟨[7], 1, .bin⟩ .le = (.error (.truncated 4 0), ⟨[7], 1, .bin⟩) ∧
    Decoder.readUint64 ⟨[7], 1, .bin⟩ .le = (.error (.truncated 8 0), ⟨[7], 1, .bin⟩) ∧
    Decoder.readUint128 ⟨[7], 1, .bin⟩ .le = (.error (.truncated 16 0), ⟨[7], 1, .bin⟩) ∧
    Decoder.readFloat32 ⟨[7], 1, .bin⟩ .le = (.error (.truncated 4 0), ⟨[7], 1, .bin⟩) ∧
    Decoder.readFloat64 ⟨[7], 1, .bin⟩ .le = (.error (.truncated 8 0), ⟨[7], 1, .bin⟩) ∧
    readNBytes 2 ⟨[7], 1, .bin⟩ = (.error (.truncated 1 0), ⟨[7], 1, .bin⟩) := by
  have h := c1_truncation_contract ⟨[7], 1, .bin⟩ .le 2
  exact ⟨h.1 (by decide), h.2.1 (by decide), h.2.2.1 (by decide), h.2.2.2.1 (by decide),
    h.2.2.2.2.1 (by decide), h.2.2.2.2.2.1 (by decide), h.2.2.2.2.2.2.1 (by decide),
    h.2.2.2.2.2.2.2.1 (by decide), h.2.2.2.2.2.2.2.2 (by decide) (by decide)⟩

/-- Claim C6: on a buffer holding a NaN bit pattern, ReadFloat32 and
ReadFloat64 fail with the disallowed-NaN error exactly when the session
encoding is Borsh; under any other encoding (Bin, CompactU16) the same bytes
succeed and yield the NaN bit pattern as the value. -/
theorem c6_borsh_nan_rejection (d : Decoder) (o : ByteOrder) :
    (4 ≤ d.remaining → isNaN32 (o.uintN 4 d.data d.pos) = true →
      (d.encoding = .borsh →
        d.readFloat32 o = (.error .disallowedNaN, { d with pos := d.pos + 4 })) ∧
      (d.encoding ≠ .borsh →
        d.readFloat32 o = (.ok (o.uintN 4 d.data d.pos), { d with pos := d.pos + 4 }))) ∧
    (8 ≤ d.remaining → isNaN64 (o.uintN 8 d.data d.pos) = true →
      (d.encoding = .borsh →
        d.readFloat64 o = (.error .disallowedNaN, { d with pos := d.pos + 8 })) ∧
      (d.encoding ≠ .borsh →
        d.readFloat64 o = (.ok (o.uintN 8 d.data d.pos), { d with pos := d.pos + 8 }))) := by
  constructor
  · intro hrem hnan
    constructor
    · intro henc
      unfold Decoder.readFloat32
      rw [if_neg (by omega)]
      simp only [Decoder.isBorsh, henc, hnan]
      rfl
    · intro henc
      unfold Decoder.readFloat32
      rw [if_neg (by omega)]
      have hb : (d.encoding == Encoding.borsh) = false := by
        cases he : d.encoding <;> simp_all
      simp only [Decoder.isBorsh, hb, Bool.false_and, if_neg]
      simp
  · intro hrem hnan
    constructor
    · intro henc
      unfold Decoder.readFloat64
      rw [if_neg (by omega)]
      simp only [Decoder.isBorsh, henc, hnan]
      rfl
    · intro henc
      unfold Decoder.readFloat64
      rw [if_neg (by omega)]
      have hb : (d.encoding == Encoding.borsh) = false := by
        cases he : d.encoding <;> simp_all
      simp only [Decoder.isBorsh, hb, Bool.false_and, if_neg]
      simp

/-- Claim C6 witness: a single-precision quiet NaN pattern (0x7FC00000) and a
double-precision one (0x7FF8000000000000), each rejected under Borsh and
decoded as their NaN bit pattern under Bin. -/
theorem c6_borsh_nan_rejection_witness :
    Decoder.readFloat32 ⟨[0, 0, 0xC0, 0x7F], 0, .borsh⟩ .le
      = (.error .disallowedNaN, ⟨[0, 0, 0xC0, 0x7F], 4, .borsh⟩) ∧
    Decoder.readFloat32 ⟨[0, 0, 0xC0, 0x7F], 0, .bin⟩ .le
      = (.ok 0x7FC00000, ⟨[0, 0, 0xC0, 0x7F], 4, .bin⟩) ∧
    Decoder.readFloat64 ⟨[0, 0, 0, 0, 0, 0, 0xF8, 0x7F], 0, .borsh⟩ .le
      = (.error .disallowedNaN, ⟨[0, 0, 0, 0, 0, 0, 0xF8, 0x7F], 8, .borsh⟩) ∧
    Decoder.readFloat64 ⟨[0, 0, 0, 0, 0, 0, 0xF8, 0x7F], 0, .compactU16⟩ .le
      = (.ok 0x7FF8000000000000, ⟨[0, 0, 0, 0, 0, 0, 0xF8, 0x7F], 8, .compactU16⟩) := by
  have h1 := c6_borsh_nan_rejection ⟨[0, 0, 0xC0, 0x7F], 0, .borsh⟩ .le
  have h2 := c6_borsh_nan_rejection ⟨[0, 0, 0xC0, 0x7F], 0, .bin⟩ .le
  have h3 := c6_borsh_nan_rejection ⟨[0, 0, 0, 0, 0, 0, 0xF8, 0x7F], 0, .borsh⟩ .le
  have h4 := c6_borsh_nan_rejection ⟨[0, 0, 0, 0, 0, 0, 0xF8, 0x7F], 0, .compactU16⟩ .le
  exact ⟨(h1.1 (by decide) (by decide)).1 rfl, (h2.1 (by decide) (by decide)).2 (by decide),
    (h3.2 (by decide) (by decide)).1 rfl, (h4.2 (by decide) (by decide)).2 (by decide)⟩

/-- Claim C9 counterexample: on a 1-byte buffer, SetPosition(1) — with the
index equal to the buffer length — fails, where the claim states it succeeds;
the guard in the code is a strict comparison. -/
theorem c9_setPosition_at_length_fails :
    Decoder.setPosition ⟨[42], 0, .bin⟩ 1
      = (.error (.posOutOfBuffer 1 1), ⟨[42], 0, .bin⟩) ∧
    (Except.error (DecErr.posOutOfBuffer 1 1) : Except DecErr Unit) ≠ .ok () := by
  exact ⟨rfl, fun h => Except.noConfusion h⟩

/-- Claim C9 amended: SetPosition(idx) compares int(idx) — the
two's-complement reinterpretation of the 64-bit index — strictly against the
buffer length.  It succeeds and sets the position for idx strictly below the
buffer length; it fails for every idx from len(buffer) up to 2^63 - 1,
including idx equal to the buffer length, which the strict guard rejects
even though the position invariant admits it; and for idx at or above 2^63
the wrapped int is negative, so the guard passes and the call succeeds,
storing a negative cursor. -/
theorem c9_setPosition_strict (d : Decoder) (idx : Nat) :
    (idx < d.data.length → idx < 2 ^ 63 →
      d.setPosition idx = (.ok (), { d with pos := idx })) ∧
    (d.data.length ≤ idx → idx < 2 ^ 63 →
      d.setPosition idx = (.error (.posOutOfBuffer idx d.data.length), d)) ∧
    (2 ^ 63 ≤ idx → idx < 2 ^ 64 → (d.setPosition idx).1 = .ok ()) := by
  refine ⟨?_, ?_, ?_⟩
  · intro h hlt
    have hmod : idx % 2 ^ 64 = idx := Nat.mod_eq_of_lt (lt_trans hlt (by norm_num))
    have ht : toSigned 64 idx = (idx : Int) := by
      unfold toSigned
      rw [hmod, if_pos (by simpa using hlt)]
      rfl
    unfold Decoder.setPosition
    rw [ht]
    split
    · simp
    · omega
  · intro h hlt
    have hmod : idx % 2 ^ 64 = idx := Nat.mod_eq_of_lt (lt_trans hlt (by norm_num))
    have ht : toSigned 64 idx = (idx : Int) := by
      unfold toSigned
      rw [hmod, if_pos (by simpa using hlt)]
      rfl
    unfold Decoder.setPosition
    rw [ht]
    split
    · omega
    · rfl
  · intro h1 h2
    have hmod : idx % 2 ^ 64 = idx := Nat.mod_eq_of_lt h2
    have ht : toSigned 64 idx = Int.ofNat idx - Int.ofNat (2 ^ 64) := by
      unfold toSigned
      rw [hmod, if_neg (by simpa using not_lt.mpr h1)]
    have hneg : Int.ofNat idx - Int.ofNat (2 ^ 64) < (d.data.length : Int) := by
      have hlt0 : Int.ofNat idx - Int.ofNat (2 ^ 64) < 0 := sub_neg.mpr (Int.ofNat_lt.mpr h2)
      exact lt_of_lt_of_le hlt0 (by exact_mod_cast Nat.zero_le d.data.length)
    unfold Decoder.setPosition
    rw [ht]
    split
    · rfl
    · exact absurd hneg (by assumption)

/-- Claim C9 witness: on a 1-byte buffer, index 0 succeeds, index 2 fails,
and index 2^63 — far beyond the buffer — succeeds through the negative
int(idx) wrap. -/
theorem c9_setPosition_strict_witness :
    Decoder.setPosition ⟨[42], 0, .bin⟩ 0 = (.ok (), ⟨[42], 0, .bin⟩) ∧
    Decoder.setPosition ⟨[42], 0, .bin⟩ 2
      = (.error (.posOutOfBuffer 2 1), ⟨[42], 0, .bin⟩) ∧
    (Decoder.setPosition ⟨[42], 0, .bin⟩ (2 ^ 63)).1 = .ok () := by
  refine ⟨?_, ?_, ?_⟩
  · exact (c9_setPosition_strict ⟨[42], 0, .bin⟩ 0).1 (by decide) (by norm_num)
  · exact (c9_setPosition_strict ⟨[42], 0, .bin⟩ 2).2.1 (by decide) (by norm_num)
  · exact (c9_setPosition_strict ⟨[42], 0, .bin⟩ (2 ^ 63)).2.2 (by norm_num) (by norm_num)

/-- Claim C10: when ReadFloat32 / ReadFloat64 reject a NaN bit pattern under
Borsh, the cursor has already advanced by the float's full width before the
error is returned and is not restored: the failed call leaves the position at
start + width, different from the starting position. -/
theorem c10_nan_error_not_atomic (d : Decoder) (o : ByteOrder)
    (hb : d.encoding = .borsh) :
    (4 ≤ d.remaining → isNaN32 (o.uintN 4 d.data d.pos) = true →
      (d.readFloat32 o).1 = .error .disallowedNaN ∧
      (d.readFloat32 o).2.pos = d.pos + 4 ∧ (d.readFloat32 o).2.pos ≠ d.pos) ∧
    (8 ≤ d.remaining → isNaN64 (o.uintN 8 d.data d.pos) = true →
      (d.readFloat64 o).1 = .error .disallowedNaN ∧
      (d.readFloat64 o).2.pos = d.pos + 8 ∧ (d.readFloat64 o).2.pos ≠ d.pos) := by
  constructor
  · intro hrem hnan
    have hr : d.readFloat32 o = (.error .disallowedNaN, { d with pos := d.pos + 4 }) := by
      unfold Decoder.readFloat32
      rw [if_neg (by omega)]
      simp only [Decoder.isBorsh, hb, hnan]
      rfl
    rw [hr]
    exact ⟨rfl, rfl, by simp⟩
  · intro hrem hnan
    have hr : d.readFloat64 o = (.error .disallowedNaN, { d with pos := d.pos + 8 }) := by
      unfold Decoder.readFloat64
      rw [if_neg (by omega)]
      simp only [Decoder.isBorsh, hb, hnan]
      rfl
    rw [hr]
    exact ⟨rfl, rfl, by simp⟩

/-- Claim C10 witness: the NaN rejection on concrete Borsh buffers leaves the
cursor at 4 (resp. 8), not at the starting position 0. -/
theorem c10_nan_error_not_atomic_witness :
    (Decoder.readFloat32 ⟨[0, 0, 0xC0, 0x7F], 0, .borsh⟩ .le).1 = .error .disallowedNaN ∧
    (Decoder.readFloat32 ⟨[0, 0, 0xC0, 0x7F], 0, .borsh⟩ .le).2.pos = 4 ∧
    (Decoder.readFloat64 ⟨[0, 0, 0, 0, 0, 0, 0xF8, 0x7F], 0, .borsh⟩ .le).1
      = .error .disallowedNaN ∧
    (Decoder.readFloat64 ⟨[0, 0, 0, 0, 0, 0, 0xF8, 0x7F], 0, .borsh⟩ .le).2.pos = 8 := by
  have h1 := (c10_nan_error_not_atomic ⟨[0, 0, 0xC0, 0x7F], 0, .borsh⟩ .le rfl).1
    (by decide) (by decide)
  have h2 := (c10_nan_error_not_atomic ⟨[0, 0, 0, 0, 0, 0, 0xF8, 0x7F], 0, .borsh⟩ .le rfl).2
    (by decide) (by decide)
  exact ⟨h1.1, h1.2.1, h2.1, h2.2.1⟩

/-- Claim C3 counterexample: for a destination of a non-pointer
custom-override type decoded with an optional directive from a buffer whose
next byte is 0, the absent path does not return success: the indirect walk
with decodingNull returns the unmarshaler with a zero reflect.Value, and
setting the zero value panics at rv.Type() — so the decode does not set the
destination and does not succeed, contrary to the claim's universal
statement. -/
theorem c3_custom_absent_panics :
    decodeBinAt 3 envNone (.customT 0 .uint8T) (.uintV 7) ⟨true, .le, none⟩ ⟨[0], 0, .bin⟩
      = (.error .panicInvalidValue, ⟨[0], 1, .bin⟩) ∧
    (Except.error DecErr.panicInvalidValue : Except DecErr Value)
      ≠ .ok (zeroValue (.customT 0 .uint8T)) := ⟨rfl, fun h => Except.noConfusion h⟩

/-- Claim C3 amended: with the directive marked optional and the next byte 0,
for every destination whose optional resolution stops at a settable location
(every non-custom destination and every pointer-wrapped one) the decode sets
that location to the zero value of its type, succeeds, and consumes exactly
one byte, regardless of the wrapped type's own size; for a destination whose
resolution returns a custom override with an invalid location (a non-pointer
custom-override type) the absent path panics instead of succeeding.  In both
cases the result is independent of the custom-decode environment — the
override is never invoked for an absent value.  With a nonzero presence
byte, whatever value the structural body decodes from the rest is the
result. -/
theorem c3_optional_presence (fuel : Nat) (env env2 : CustomEnv) (t : Ty) (old : Value)
    (opt : Opt) (d : Decoder)
    (hopt : opt.optionalField = true) (hpos : d.pos < d.data.length) :
    (byteAt d.data d.pos = 0 →
      (indirectNullFindsUnmarshaler t = false →
        decodeBinAt (fuel + 1) env t old opt d
          = (.ok (zeroValue t), { d with pos := d.pos + 1 })) ∧
      (indirectNullFindsUnmarshaler t = true →
        decodeBinAt (fuel + 1) env t old opt d
          = (.error .panicInvalidValue, { d with pos := d.pos + 1 })) ∧
      decodeBinAt (fuel + 1) env t old opt d = decodeBinAt (fuel + 1) env2 t old opt d) ∧
    (byteAt d.data d.pos ≠ 0 →
      ∀ v d1,
        decodeCoreGo (decodeBinAt fuel env) env t old opt { d with pos := d.pos + 1 }
          = (.ok v, d1) →
        decodeBinAt (fuel + 1) env t old opt d = (.ok v, d1)) := by
  have hread : d.readByte = (.ok (byteAt d.data d.pos), { d with pos := d.pos + 1 }) := by
    unfold Decoder.readByte
    rw [if_neg (by simp only [Decoder.remaining]; omega)]
  have hunf : ∀ e : CustomEnv, decodeBinAt (fuel + 1) e t old opt d =
      (if byteAt d.data d.pos == 0 then
        (if indirectNullFindsUnmarshaler t then
          (.error .panicInvalidValue, { d with pos := d.pos + 1 })
         else (.ok (zeroValue t), { d with pos := d.pos + 1 }))
       else decodeCoreGo (decodeBinAt fuel e) e t old opt { d with pos := d.pos + 1 }) := by
    intro e
    unfold decodeBinAt
    simp only [Opt.isOptional, hopt, if_true, hread]
  constructor
  · intro h0
    have hb : (byteAt d.data d.pos == 0) = true := by simp [h0]
    refine ⟨?_, ?_, ?_⟩
    · intro hfind
      rw [hunf env, if_pos hb, if_neg (by simp [hfind])]
    · intro hfind
      rw [hunf env, if_pos hb, if_pos (by simp [hfind])]
    · rw [hunf env, hunf env2, if_pos hb, if_pos hb]
  · intro h0 v d1 hcore
    have hb : (byteAt d.data d.pos == 0) = false := by simp [h0]
    rw [hunf env, if_neg (by simp [hb])]
    exact hcore

/-- Claim C3 witness: an optional uint64 decoded from a zero presence byte
yields the zero value after exactly one byte even though the wrapped type
needs eight; an optional non-pointer custom-override destination panics on
the same presence byte; an optional uint8 with presence byte 1 decodes the
value 5. -/
theorem c3_optional_presence_witness :
    decodeBinAt 3 envNone .uint64T (.uintV 7) ⟨true, .le, none⟩ ⟨[0, 9], 0, .bin⟩
      = (.ok (.uintV 0), ⟨[0, 9], 1, .bin⟩) ∧
    decodeBinAt 3 envNone (.customT 1 .uint16T) (.uintV 7) ⟨true, .le, none⟩ ⟨[0, 9], 0, .bin⟩
      = (.error .panicInvalidValue, ⟨[0, 9], 1, .bin⟩) ∧
    decodeBinAt 3 envNone .uint8T (.uintV 0) ⟨true, .le, none⟩ ⟨[1, 5], 0, .bin⟩
      = (.ok (.uintV 5), ⟨[1, 5], 2, .bin⟩) := by
  refine ⟨?_, ?_, ?_⟩
  · exact ((c3_optional_presence 2 envNone envNone .uint64T (.uintV 7) ⟨true, .le, none⟩
      ⟨[0, 9], 0, .bin⟩ rfl (by decide)).1 (by decide)).1 rfl
  · exact ((c3_optional_presence 2 envNone envNone (.customT 1 .uint16T) (.uintV 7)
      ⟨true, .le, none⟩ ⟨[0, 9], 0, .bin⟩ rfl (by decide)).1 (by decide)).2.1 rfl
  · exact (c3_optional_presence 2 envNone envNone .uint8T (.uintV 0) ⟨true, .le, none⟩
      ⟨[1, 5], 0, .bin⟩ rfl (by decide)).2 (by decide) (.uintV 5) ⟨[1, 5], 2, .bin⟩ rfl

/-- Claim C7 counterexample: the engine's string dispatch on the Bin buffer
[0x01, 0xFF] (length 1, then the invalid UTF-8 byte 0xFF) yields the raw byte
0xFF, while the sanitizing read of the very same buffer yields the UTF-8
replacement character bytes [0xEF, 0xBF, 0xBD]; the two disagree, so the
engine does not replace invalid sequences as the claim states. -/
theorem c7_invalid_utf8_not_replaced :
    decodeBinAt 5 envNone .stringT (.strV []) newDefaultOpt ⟨[1, 0xFF], 0, .bin⟩
      = (.ok (.strV [0xFF]), ⟨[1, 0xFF], 2, .bin⟩) ∧
    Decoder.safeReadUTF8String ⟨[1, 0xFF], 0, .bin⟩
      = (.ok [0xEF, 0xBF, 0xBD], ⟨[1, 0xFF], 2, .bin⟩) ∧
    [(0xFF : Nat)] ≠ [0xEF, 0xBF, 0xBD] := ⟨rfl, rfl, by decide⟩

/-- Claim C7 amended: when the engine dispatches a value of the string
category it uses ReadString, the raw flavor — the length-prefixed bytes are
copied verbatim with no UTF-8 sanitization; the sanitizing flavor
(SafeReadUTF8String) exists but is not what the engine invokes. -/
theorem c7_string_dispatch_raw (fuel : Nat) (env : CustomEnv) (old : Value) (o : ByteOrder)
    (so : Option Int) (d : Decoder) :
    decodeBinAt (fuel + 1) env .stringT old ⟨false, o, so⟩ d =
      (match d.readString with
       | (.error e, d1) => (.error e, d1)
       | (.ok s, d1) => (.ok (.strV s), d1)) := rfl

/-- Claim C2 counterexample: decoding `{ Len uint32 sizeof=Items; Items
[]byte }` in Bin mode from the exact 4-byte buffer [0x03, 0x41, 0x42, 0x43]
does not succeed: the uint32 read of Len consumes all four bytes (under
either byte order), the linked size becomes the resulting large value, and
decoding the first item fails with a truncation error at position 4. -/
theorem c2_fourByte_buffer_fails :
    decodeBinAt 10 envNone (c2Ty .le) (zeroValue (c2Ty .le)) newDefaultOpt
        ⟨[3, 0x41, 0x42, 0x43], 0, .bin⟩
      = (.error (.truncated 1 0), ⟨[3, 0x41, 0x42, 0x43], 4, .bin⟩) ∧
    decodeBinAt 10 envNone (c2Ty .be) (zeroValue (c2Ty .be)) newDefaultOpt
        ⟨[3, 0x41, 0x42, 0x43], 0, .bin⟩
      = (.error (.truncated 1 0), ⟨[3, 0x41, 0x42, 0x43], 4, .bin⟩) ∧
    (Except.error (DecErr.truncated 1 0) : Except DecErr Value)
      ≠ .ok (.structV (.vcons (.uintV 3) (.vcons (.arrV (.vcons (.uintV 0x41)
          (.vcons (.uintV 0x42) (.vcons (.uintV 0x43) .vnil)))) .vnil))) :=
  ⟨rfl, rfl, fun h => Except.noConfusion h⟩

/-- Claim C2 amended: the linkage example needs Len's full fixed-width
encoding: from the 7-byte Bin buffer [0x03, 0x00, 0x00, 0x00, 0x41, 0x42,
0x43] (little-endian Len = 3, then the items), the record decodes to Len = 3
and Items = [0x41, 0x42, 0x43], consuming exactly 7 bytes; the field driver
records size 3 under "Items" in the linkage table and the element count is
taken from there — no length is read from the stream between Len and the
item bytes, as the position arithmetic shows. -/
theorem c2_linkage_decode :
    decodeBinAt 10 envNone (c2Ty .le) (zeroValue (c2Ty .le)) newDefaultOpt
        ⟨[3, 0, 0, 0, 0x41, 0x42, 0x43], 0, .bin⟩
      = (.ok (.structV (.vcons (.uintV 3) (.vcons (.arrV (.vcons (.uintV 0x41)
          (.vcons (.uintV 0x42) (.vcons (.uintV 0x43) .vnil)))) .vnil))),
         ⟨[3, 0, 0, 0, 0x41, 0x42, 0x43], 7, .bin⟩) ∧
    decodeFieldsGo (decodeBinAt 9 envNone) (c2FieldList .le)
        (zeroFields (c2FieldList .le)) false [] ⟨[3, 0, 0, 0, 0x41, 0x42, 0x43], 0, .bin⟩
      = (.ok (.vcons (.uintV 3) (.vcons (.arrV (.vcons (.uintV 0x41)
          (.vcons (.uintV 0x42) (.vcons (.uintV 0x43) .vnil)))) .vnil)),
         [("Items", 3)], ⟨[3, 0, 0, 0, 0x41, 0x42, 0x43], 7, .bin⟩) := ⟨rfl, rfl⟩

/-- Claim C4: extension-field forward compatibility for a record with fields
[A, B(ext), C(ext)].  When A's decode consumes the whole buffer, the record
decode succeeds with B and C left at their zero values and the cursor at A's
end.  When bytes remain after A and after B, all three fields decode in
sequence and the record carries all three decoded values. -/
theorem c4_extension_forward_compat (fuel : Nat) (env : CustomEnv) (nA nB nC : String)
    (oA oB oC oTop : ByteOrder) (tA tB tC : Ty) (d0 d1 : Decoder) (vA : Value) :
    (decodeBinAt fuel env tA (zeroValue tA) ⟨false, oA, none⟩ d0 = (.ok vA, d1) →
      d1.remaining = 0 →
      decodeBinAt (fuel + 1) env (.structT (c4Fields nA nB nC oA oB oC tA tB tC))
          (zeroValue (.structT (c4Fields nA nB nC oA oB oC tA tB tC))) ⟨false, oTop, none⟩ d0
        = (.ok (.structV (.vcons vA (.vcons (zeroValue tB) (.vcons (zeroValue tC) .vnil)))),
           d1)) ∧
    (∀ vB vC d2 d3,
      decodeBinAt fuel env tA (zeroValue tA) ⟨false, oA, none⟩ d0 = (.ok vA, d1) →
      d1.remaining ≠ 0 →
      decodeBinAt fuel env tB (zeroValue tB) ⟨false, oB, none⟩ d1 = (.ok vB, d2) →
      d2.remaining ≠ 0 →
      decodeBinAt fuel env tC (zeroValue tC) ⟨false, oC, none⟩ d2 = (.ok vC, d3) →
      decodeBinAt (fuel + 1) env (.structT (c4Fields nA nB nC oA oB oC tA tB tC))
          (zeroValue (.structT (c4Fields nA nB nC oA oB oC tA tB tC))) ⟨false, oTop, none⟩ d0
        = (.ok (.structV (.vcons vA (.vcons vB (.vcons vC .vnil)))), d3)) := by
  constructor
  · intro hA h1
    have hb : (d1.remaining == 0) = true := by simp [h1]
    simp only [decodeBinAt, Opt.isOptional, Bool.false_eq_true, if_false, decodeCoreGo,
      zeroValue, zeroFields, c4Fields, decodeFieldsGo, hA, hb, Bool.true_and, Bool.false_and,
      Bool.not_true, Bool.not_false, Bool.and_self, if_true, Bool.or_false, Bool.false_or,
      Bool.or_true, Bool.true_or, List.lookup, beq_self_eq_true]
  · intro vB vC d2 d3 hA h1 hB h2 hC
    have hb1 : (d1.remaining == 0) = false := by simp [h1]
    have hb2 : (d2.remaining == 0) = false := by simp [h2]
    simp only [decodeBinAt, Opt.isOptional, Bool.false_eq_true, if_false, decodeCoreGo,
      zeroValue, zeroFields, c4Fields, decodeFieldsGo, hA, hB, hC, hb1, hb2, Bool.true_and,
      Bool.false_and, Bool.not_true, Bool.not_false, Bool.and_self, if_true, Bool.or_false,
      Bool.false_or, Bool.or_true, Bool.true_or, List.lookup, beq_self_eq_true]

/-- Claim C4 witness: three uint8 fields [A, B(ext), C(ext)].  From the
1-byte buffer [5] the record decodes to (5, 0, 0) consuming the whole buffer;
from the 3-byte buffer [5, 6, 7] it decodes to (5, 6, 7). -/
theorem c4_extension_forward_compat_witness :
    decodeBinAt 2 envNone (.structT (c4Fields "A" "B" "C" .le .le .le .uint8T .uint8T .uint8T))
        (zeroValue (.structT (c4Fields "A" "B" "C" .le .le .le .uint8T .uint8T .uint8T)))
        ⟨false, .le, none⟩ ⟨[5], 0, .bin⟩
      = (.ok (.structV (.vcons (.uintV 5) (.vcons (.uintV 0) (.vcons (.uintV 0) .vnil)))),
         ⟨[5], 1, .bin⟩) ∧
    decodeBinAt 2 envNone (.structT (c4Fields "A" "B" "C" .le .le .le .uint8T .uint8T .uint8T))
        (zeroValue (.structT (c4Fields "A" "B" "C" .le .le .le .uint8T .uint8T .uint8T)))
        ⟨false, .le, none⟩ ⟨[5, 6, 7], 0, .bin⟩
      = (.ok (.structV (.vcons (.uintV 5) (.vcons (.uintV 6) (.vcons (.uintV 7) .vnil)))),
         ⟨[5, 6, 7], 3, .bin⟩) := by
  constructor
  · exact (c4_extension_forward_compat 1 envNone "A" "B" "C" .le .le .le .le
      .uint8T .uint8T .uint8T ⟨[5], 0, .bin⟩ ⟨[5], 1, .bin⟩ (.uintV 5)).1 rfl (by decide)
  · exact (c4_extension_forward_compat 1 envNone "A" "B" "C" .le .le .le .le
      .uint8T .uint8T .uint8T ⟨[5, 6, 7], 0, .bin⟩ ⟨[5, 6, 7], 1, .bin⟩ (.uintV 5)).2
      (.uintV 6) (.uintV 7) ⟨[5, 6, 7], 2, .bin⟩ ⟨[5, 6, 7], 3, .bin⟩
      rfl (by decide) rfl (by decide) rfl

/-- Claim C5 counterexample: the record [A(ext), B] decoded from the
non-empty buffer [7, 8] does raise the tag-ordering panic, but only after
field A has been decoded: the cursor afterwards is at position 1, not at the
initial position 0, so the failure does not occur before any bytes are read. -/
theorem c5_panic_after_reading_bytes :
    decodeBinAt 5 envNone (.structT (c5Fields "A" "B" .le .le .uint8T .uint8T))
        (zeroValue (.structT (c5Fields "A" "B" .le .le .uint8T .uint8T)))
        newDefaultOpt ⟨[7, 8], 0, .bin⟩
      = (.error (.panicTagOrdering "B"), ⟨[7, 8], 1, .bin⟩) ∧
    (1 : Nat) ≠ 0 := ⟨rfl, by decide⟩

/-- Claim C5 amended: for a record [A(ext), B] with B not extension-tagged,
the TagOrderingViolation panic is raised when the field driver reaches B,
before any of B's bytes are read, and cannot be avoided once B is reached:
on an empty remainder A is skipped and the panic fires with the cursor
unmoved; when bytes remain, A is first decoded — consuming bytes — and the
panic then fires at A's end position; an error in A's decode preempts the
panic entirely, so the failure mode does vary with the buffer contents. -/
theorem c5_tag_ordering_at_offender (fuel : Nat) (env : CustomEnv) (nA nB : String)
    (oA oB oTop : ByteOrder) (tA tB : Ty) (d0 : Decoder) :
    (d0.remaining = 0 →
      decodeBinAt (fuel + 1) env (.structT (c5Fields nA nB oA oB tA tB))
          (zeroValue (.structT (c5Fields nA nB oA oB tA tB))) ⟨false, oTop, none⟩ d0
        = (.error (.panicTagOrdering nB), d0)) ∧
    (∀ vA d1, d0.remaining ≠ 0 →
      decodeBinAt fuel env tA (zeroValue tA) ⟨false, oA, none⟩ d0 = (.ok vA, d1) →
      decodeBinAt (fuel + 1) env (.structT (c5Fields nA nB oA oB tA tB))
          (zeroValue (.structT (c5Fields nA nB oA oB tA tB))) ⟨false, oTop, none⟩ d0
        = (.error (.panicTagOrdering nB), d1)) ∧
    (∀ e d1, d0.remaining ≠ 0 →
      decodeBinAt fuel env tA (zeroValue tA) ⟨false, oA, none⟩ d0 = (.error e, d1) →
      decodeBinAt (fuel + 1) env (.structT (c5Fields nA nB oA oB tA tB))
          (zeroValue (.structT (c5Fields nA nB oA oB tA tB))) ⟨false, oTop, none⟩ d0
        = (.error e, d1)) := by
  refine ⟨?_, ?_, ?_⟩
  · intro h0
    have hb : (d0.remaining == 0) = true := by simp [h0]
    simp only [decodeBinAt, Opt.isOptional, Bool.false_eq_true, if_false, decodeCoreGo,
      zeroValue, zeroFields, c5Fields, decodeFieldsGo, hb, Bool.true_and, Bool.false_and,
      Bool.not_true, Bool.not_false, Bool.and_self, if_true, Bool.or_false, Bool.false_or,
      List.lookup]
  · intro vA d1 h0 hA
    have hb : (d0.remaining == 0) = false := by simp [h0]
    simp only [decodeBinAt, Opt.isOptional, Bool.false_eq_true, if_false, decodeCoreGo,
      zeroValue, zeroFields, c5Fields, decodeFieldsGo, hb, Bool.true_and, Bool.false_and,
      Bool.not_true, Bool.not_false, Bool.and_self, if_true, Bool.or_false, Bool.false_or,
      List.lookup, hA, beq_self_eq_true]
  · intro e d1 h0 hA
    have hb : (d0.remaining == 0) = false := by simp [h0]
    simp only [decodeBinAt, Opt.isOptional, Bool.false_eq_true, if_false, decodeCoreGo,
      zeroValue, zeroFields, c5Fields, decodeFieldsGo, hb, Bool.true_and, Bool.false_and,
      Bool.not_true, Bool.not_false, Bool.and_self, if_true, Bool.or_false, Bool.false_or,
      List.lookup, hA]

/-- Claim C5 witness: [A(ext) uint8, B uint8] on the empty buffer panics with
the cursor at 0; on the buffer [9] it panics with the cursor at 1 after A's
decode; [A(ext) uint16, B uint8] on the buffer [9] fails with A's truncation
error instead of the panic. -/
theorem c5_tag_ordering_at_offender_witness :
    decodeBinAt 2 envNone (.structT (c5Fields "A" "B" .le .le .uint8T .uint8T))
        (zeroValue (.structT (c5Fields "A" "B" .le .le .uint8T .uint8T)))
        ⟨false, .le, none⟩ ⟨[], 0, .bin⟩
      = (.error (.panicTagOrdering "B"), ⟨[], 0, .bin⟩) ∧
    decodeBinAt 2 envNone (.structT (c5Fields "A" "B" .le .le .uint8T .uint8T))
        (zeroValue (.structT (c5Fields "A" "B" .le .le .uint8T .uint8T)))
        ⟨false, .le, none⟩ ⟨[9], 0, .bin⟩
      = (.error (.panicTagOrdering "B"), ⟨[9], 1, .bin⟩) ∧
    decodeBinAt 2 envNone (.structT (c5Fields "A" "B" .le .le .uint16T .uint8T))
        (zeroValue (.structT (c5Fields "A" "B" .le .le .uint16T .uint8T)))
        ⟨false, .le, none⟩ ⟨[9], 0, .bin⟩
      = (.error (.truncated 2 1), ⟨[9], 0, .bin⟩) := by
  refine ⟨?_, ?_, ?_⟩
  · exact (c5_tag_ordering_at_offender 1 envNone "A" "B" .le .le .le .uint8T .uint8T
      ⟨[], 0, .bin⟩).1 (by decide)
  · exact (c5_tag_ordering_at_offender 1 envNone "A" "B" .le .le .le .uint8T .uint8T
      ⟨[9], 0, .bin⟩).2.1 (.uintV 9) ⟨[9], 1, .bin⟩ (by decide) rfl
  · exact (c5_tag_ordering_at_offender 1 envNone "A" "B" .le .le .le .uint16T .uint8T
      ⟨[9], 0, .bin⟩).2.2 (.truncated 2 1) ⟨[9], 0, .bin⟩ (by decide) rfl

/-- Claim C8 counterexample: a signed size-source field (int8, tag
sizeof=X) decoded from the byte 0xFB yields -5 and the SizeLinkage table
records -5 under X — not 0 as the claim's clamping rule requires for a
negative value. -/
theorem c8_negative_signed_not_clamped :
    decodeFieldsGo (decodeBinAt 5 envNone)
        (.fcons "A" ⟨false, false, false, .le, "X"⟩ .int8T .fnil)
        (.vcons (.intV 0) .vnil) false [] ⟨[0xFB], 0, .bin⟩
      = (.ok (.vcons (.intV (-5)) .vnil), [("X", -5)], ⟨[0xFB], 1, .bin⟩) ∧
    (-5 : Int) ≠ 0 := ⟨rfl, by decide⟩

/-- Claim C8 amended: a size-source field records sizeof of its decoded
value in the SizeLinkage table under the target name; sizeof leaves signed
integer values unchanged — a negative value is recorded negative, not
clamped — while unsigned values are reinterpreted as a signed 64-bit integer
(values at or above 2^63 wrap negative) and only that reinterpretation is
clamped to 0 when negative. -/
theorem c8_sizeof_recording (bin : DecodeFn) (name s : String) (tag : FieldTag) (t : Ty)
    (old v : Value) (z : Int) (d d1 : Decoder) :
    (tag.skip = false → tag.binaryExtension = false → tag.sizeOf = s → s ≠ "" →
      bin t old ⟨tag.optional, tag.order, none⟩ d = (.ok v, d1) →
      sizeofGo t v = .ok z →
      decodeFieldsGo bin (.fcons name tag t .fnil) (.vcons old .vnil) false [] d
        = (.ok (.vcons v .vnil), [(s, z)], d1)) ∧
    (∀ n : Int, sizeofGo .int8T (.intV n) = .ok n ∧ sizeofGo .int16T (.intV n) = .ok n ∧
      sizeofGo .int32T (.intV n) = .ok n ∧ sizeofGo .int64T (.intV n) = .ok n) ∧
    (∀ n : Nat,
      sizeofGo .uint8T (.uintV n) = .ok (if toSigned 64 n < 0 then 0 else toSigned 64 n) ∧
      sizeofGo .uint16T (.uintV n) = .ok (if toSigned 64 n < 0 then 0 else toSigned 64 n) ∧
      sizeofGo .uint32T (.uintV n) = .ok (if toSigned 64 n < 0 then 0 else toSigned 64 n) ∧
      sizeofGo .uint64T (.uintV n) = .ok (if toSigned 64 n < 0 then 0 else toSigned 64 n)) := by
  refine ⟨?_, fun n => ⟨rfl, rfl, rfl, rfl⟩, fun n => ⟨rfl, rfl, rfl, rfl⟩⟩
  intro hskip hext hname hs hbin hsize
  have hbe : (s == "") = false := beq_eq_false_iff_ne.mpr hs
  simp only [decodeFieldsGo, hskip, hext, hbin, hsize, hbe, hname, Bool.false_eq_true,
    if_false, Bool.and_false, Bool.false_and, Bool.and_self, Bool.not_false, Bool.true_and,
    List.lookup]

/-- Claim C8 witness: the recording step on the concrete int8 size-source
field with value -5 stores -5 in the table. -/
theorem c8_sizeof_recording_witness :
    decodeFieldsGo (decodeBinAt 5 envNone)
        (.fcons "Len" ⟨false, false, false, .le, "Body"⟩ .int8T .fnil)
        (.vcons (.intV 0) .vnil) false [] ⟨[0xFB, 1], 0, .bin⟩
      = (.ok (.vcons (.intV (-5)) .vnil), [("Body", -5)], ⟨[0xFB, 1], 1, .bin⟩) := by
  exact (c8_sizeof_recording (decodeBinAt 5 envNone) "Len" "Body"
      ⟨false, false, false, .le, "Body"⟩ .int8T (.intV 0) (.intV (-5)) (-5)
      ⟨[0xFB, 1], 0, .bin⟩ ⟨[0xFB, 1], 1, .bin⟩).1
    rfl rfl rfl (by decide) rfl rfl

end GoBinary
